import Mathlib

/-!
Shallow embedding of the conversion server (`server.js`) of the
`alltools-tech/new-pdf` repository, together with theorems about its
orchestration engine: the CloudConvert remote-conversion client, the
per-file conversion strategy with local/remote fallback, the
images-to-PDF page-reassembly engine, the PDF-compression rasterization
path, and the bulk `/api/convert` handler with its packaging decision.

Byte buffers are modelled as `List Nat`; the pixel-level codec
operations of the `sharp` library and the network calls of the
CloudConvert protocol are modelled as explicit oracle fields of an
`Env` record (the spec treats them as external capability interfaces),
while all control flow of `server.js` — branch structure, fallback
chains, error propagation through try/catch, output naming and
packaging — is translated directly from the source.
-/

set_option autoImplicit false

namespace Server

/-- Raw byte content of a file or buffer. -/
abbrev Buf := List Nat

/-! ## String helpers (`path.extname`, `path.parse(..).name`, lowercasing) -/

/-- ASCII lowercasing, modelling JavaScript `String.prototype.toLowerCase`
on the ASCII names and extensions this server manipulates. -/
def lowerStr (s : String) : String := String.mk (s.data.map Char.toLower)

/-- Model of Node's `path.extname` on a plain base name (the server only
applies it to uploaded file names and generated temp names, which contain
no directory separators).  Returns the suffix starting at the last dot,
or `""` when there is no dot or the only relevant dot is the leading
character (hidden-file names such as `.bashrc`).  Node's special-casing
of all-dot names such as `".."` is not reproduced; no input considered
here has such a name. -/
def extname (s : String) : String :=
  let cs := s.data
  let afterDot := (cs.reverse.takeWhile (fun c => c ≠ '.')).reverse
  if afterDot.length = cs.length then ""
  else if afterDot.length + 1 = cs.length then ""
  else String.mk ('.' :: afterDot)

/-- Model of `path.parse(name).name`: the file name with its `extname`
removed. -/
def baseName (s : String) : String :=
  String.mk (s.data.take (s.data.length - (extname s).data.length))

/-! ## Decimal rendering (the `${i+1}` page-index interpolation)

`server.js` builds page output names with the template literal
`` `${base}_page${i+1}.${ext}` ``; the decimal rendering of the index is
modelled by `natRepr` below, built from most-significant-first digit
lists so that injectivity can be proved. -/

/-- Most-significant-first decimal digits, structurally recursive on a
fuel argument (the number itself bounds the recursion depth). -/
def natDigitsAux : Nat → Nat → List Nat
  | 0, n => [n % 10]
  | fuel + 1, n => if n < 10 then [n] else natDigitsAux fuel (n / 10) ++ [n % 10]

/-- Most-significant-first decimal digits of a natural number. -/
def natDigitsList (n : Nat) : List Nat := natDigitsAux n n

/-- The ASCII character of a single decimal digit. -/
def digitChar (d : Nat) : Char := Char.ofNat (48 + d % 10)

/-- Decimal rendering of a natural number, as produced by the `${...}`
interpolation in generated output names. -/
def natRepr (n : Nat) : String := String.mk ((natDigitsList n).map digitChar)

/-- Evaluate a most-significant-first digit list back to the number. -/
def readNat (ds : List Nat) : Nat := ds.foldl (fun a d => a * 10 + d) 0

/-! ## Request-field parsing helpers -/

/-- The value the handler receives for the `quality` form field, as seen
through JavaScript `parseInt`: the field can be absent or empty (falsy,
so `q || '80'` substitutes the default), parse to `NaN`, or parse to an
integer. -/
inductive QVal where
  | missing
  | nan
  | int (n : Int)
deriving DecidableEq

/-- `clampQuality` from `server.js` line 92:
`const n = parseInt(q || '80', 10); return Math.max(10, Math.min(95, isNaN(n) ? 80 : n));` -/
def clampQuality (q : QVal) : Int :=
  let n : Option Int :=
    match q with
    | .missing => some 80
    | .nan => none
    | .int n => some n
  max 10 (min 95 (match n with | some v => v | none => 80))

/-- `isImageMime` from `server.js` line 86:
`/^image\//.test(m) || m === 'image/svg+xml'`. -/
def isImageMime (m : String) : Bool :=
  "image/".data.isPrefixOf m.data || m == "image/svg+xml"

/-- `isHeicByName` from `server.js` lines 87-90.  The `mimetype` argument
is `Option String` because the source calls it with `null` at the
forced-remote check site. -/
def isHeicByName (name : String) (mimetype : Option String) : Bool :=
  let ext := lowerStr (extname name)
  (ext == ".heic" || ext == ".heif") ||
    (match mimetype with
     | some m => m == "image/heic" || m == "image/heif" || m == "application/octet-stream"
     | none => false)

/-- `isPdfMime` from `server.js` line 91. -/
def isPdfMime (m : String) (name : String) : Bool :=
  m == "application/pdf" || lowerStr (extname name) == ".pdf"

/-! ## CloudConvert job specification (`jobSpec`, lines 106-118)

The job descriptor submitted to the remote service: an import/upload
task, a convert task whose body is `output_format` plus the optional
`input_format` and the spread of `options.convertOptions`, and an
export/url task.  Only the convert task carries caller-dependent data,
so the spec is modelled by that task's payload. -/

/-- The `options` argument of `cloudConvertFallbackConvert`. -/
structure CCOptions where
  input_format : Option String
  convertOptions : List (String × String)
deriving DecidableEq

/-- The empty options object `{}` that every call site in `server.js`
passes. -/
def emptyOptions : CCOptions := ⟨none, []⟩

/-- The caller-dependent payload of the submitted job descriptor. -/
structure JobSpec where
  output_format : String
  input_format : Option String
  convertOptions : List (String × String)
deriving DecidableEq

/-- Output-format normalization plus job-descriptor construction,
`server.js` lines 100-118: lowercase, map `jpeg` to `jpg`, default empty
to `jpg`, then build the convert-task payload from the options. -/
def mkJobSpec (outputFormat : String) (options : CCOptions) : JobSpec :=
  let o := lowerStr outputFormat
  let o := if o == "jpeg" then "jpg" else o
  let o := if o == "" then "jpg" else o
  ⟨o, options.input_format, options.convertOptions⟩

/-! ## Remote job polling (`server.js` lines 153-176) -/

/-- The fixed sleep before each poll, `setTimeout(r, 2000)`. -/
def pollIntervalMs : Nat := 2000

/-- The poll-attempt cap, `const maxPolls = 90`. -/
def maxPolls : Nat := 90

/-- What one poll round observes: a network failure (the `axios.get`
rejection is caught and replaced by `null`) or a reported job status
string. -/
inductive PollTick where
  | netErr
  | status (s : String)
deriving DecidableEq

/-- How the polling section exits: `finishedOk` for the `break` on
status `finished`; `serviceFailed` for the
`throw new Error('CloudConvert job failed: ...')` on status `error` or
`failed`; `timedOut` for the post-loop
`throw new Error('CloudConvert job timeout or did not finish ...')`,
carrying the last observed status (`none` when the last poll was a
network failure, since `jobStatus` is overwritten each round). -/
inductive PollResult where
  | finishedOk
  | serviceFailed (diag : String)
  | timedOut (lastStatus : Option String)
deriving DecidableEq

/-- The poll loop body, lines 157-176.  `i` is the index of the next
poll, `fuel` the remaining attempts, `last` the current value of the
mutable `jobStatus` binding.  Returns the exit kind together with the
number of polls performed. -/
def pollAux (ticks : Nat → PollTick) : Nat → Nat → Option String → PollResult × Nat
  | i, 0, last =>
    (match last with
     | some s => if s == "finished" then .finishedOk else .timedOut (some s)
     | none => .timedOut none, i)
  | i, fuel + 1, _ =>
    match ticks i with
    | .netErr => pollAux ticks (i + 1) fuel none
    | .status s =>
      if s == "finished" then (.finishedOk, i + 1)
      else if s == "error" || s == "failed" then (.serviceFailed s, i + 1)
      else pollAux ticks (i + 1) fuel (some s)

/-- The whole polling section: up to `maxPolls` rounds starting from a
`null` `jobStatus`. -/
def pollJob (ticks : Nat → PollTick) : PollResult × Nat :=
  pollAux ticks 0 maxPolls none

/-! ## Post-download sanity check (`server.js` lines 212-222)

The check compares every downloaded file's extension with the input
extension and throws — but the `throw` sits inside its own
`try { ... } catch (e) { console.warn(...) }`, so the raised error is
caught one line later and only logged. -/

/-- A `try`/`catch` where the handler recovers from the error. -/
def tryCatch {α : Type} (body : Except String α) (handler : String → Except String α) :
    Except String α :=
  match body with
  | .ok a => .ok a
  | .error e => handler e

/-- The body of the sanity-check `try` block, lines 214-219: if every
downloaded extension equals the input extension, throw. -/
def sanityCheckBody (inputExt : String) (downloadedExts : List String) : Except String Unit :=
  if downloadedExts.all (fun p => lowerStr p == inputExt) then
    .error "CloudConvert produced files with same extension as input"
  else .ok ()

/-- The sanity check as executed, lines 213-222: the `catch (e)` arm
only logs (`console.warn('CloudConvert sanity check triggered: ...')`)
and recovers, so the thrown error never leaves this block. -/
def sanityCheck (inputExt : String) (downloadedExts : List String) : Except String Unit :=
  tryCatch (sanityCheckBody inputExt downloadedExts) (fun _ => .ok ())

/-! ## The external-capability environment

All genuinely external effects — the `sharp` codec pipeline, `pdf-lib`
image embedding and page counting, CloudConvert network traffic, and
the `mime-types` lookup tables — are oracle functions supplied by an
`Env`.  Everything else (branching, fallbacks, naming, packaging) is
translated from `server.js`. -/

/-- A file downloaded from a finished CloudConvert export task: its
bytes and the extension of the temp file it was written to
(`path.extname(fileMeta.filename) || '.' + outFmt`, line 194). -/
structure DFile where
  bytes : Buf
  ext : String
deriving DecidableEq

structure Env where
  /-- whether `require('sharp')` succeeded at startup (module flag). -/
  sharpAvailable : Bool
  /-- whether `CLOUDCONVERT_API_KEY` is configured. -/
  cloudKey : Bool
  /-- the local `sharp` convert pipeline of lines 252-285 for a buffer,
  normalized format, clamped quality and max dimension: `some` output
  bytes, or `none` when the pipeline throws. -/
  localConvert : Buf → String → Int → Nat → Option Buf
  /-- `sharp(..).flatten(..).png().toBuffer()` re-encode of lines
  390-395: `some` PNG bytes or `none` when it throws. -/
  sharpPngReencode : Buf → Option Buf
  /-- `pdfDoc.embedJpg`: `some (width, height)` or `none` when it
  throws. -/
  embedJpg : Buf → Option (Nat × Nat)
  /-- `pdfDoc.embedPng`: `some (width, height)` or `none` when it
  throws. -/
  embedPng : Buf → Option (Nat × Nat)
  /-- `PDFDocument.load(..).getPageCount()` of line 316; the source
  maps a load failure to `0`, so `0` covers both. -/
  pageCount : Buf → Nat
  /-- `sharp(pdfBuffer, { density: 150, page: i })` rasterization of
  one page, lines 329-332: `some` image bytes or `none` when it
  throws. -/
  rasterizePage : Buf → Nat → Option Buf
  /-- the single-page rasterization attempt of lines 318-324 (taken
  when the page count is unknown): `some` bytes or `none` when it
  throws. -/
  rasterizeSingle : Buf → Option Buf
  /-- the whole remote job protocol for a submitted job spec — create,
  upload, poll, download (lines 120-210): the downloaded files, or the
  error thrown along the way. -/
  runCloudJob : Buf → JobSpec → Except String (List DFile)
  /-- `mime.lookup` keyed by file extension. -/
  mimeLookup : String → Option String
  /-- `mime.extension` keyed by mime type. -/
  mimeExtension : String → Option String
  /-- the `Date.now() + '_' + uuidv4()` stem generated for the combined
  PDF output name (line 437). -/
  freshName : String

/-! ## `cloudConvertFallbackConvert` (lines 96-225)

The network protocol itself (create job, upload, poll, download) is the
`runCloudJob` oracle; what is translated here is the caller-visible
contract: the key guard, the job-spec construction from the options,
and the swallowed post-download sanity check.  The function returns the
thrown-or-returned result together with the list of job specs actually
submitted to the service (used to state that the conversion options the
caller passes are the only channel through which quality parameters
could reach the service). -/

def cloudConvertFallbackConvert (env : Env) (fileBuf : Buf) (inputExt : String)
    (outputFormat : String) (options : CCOptions) :
    Except String (List DFile) × List JobSpec :=
  if env.cloudKey = false then (.error "CLOUDCONVERT_API_KEY not configured", [])
  else
    let spec := mkJobSpec outputFormat options
    match env.runCloudJob fileBuf spec with
    | .error e => (.error e, [spec])
    | .ok files =>
      match sanityCheck inputExt (files.map (fun d => d.ext)) with
      | .error e => (.error e, [spec])
      | .ok _ => (.ok files, [spec])

/-! ## `convertImageBufferWithFallback` (lines 230-307) -/

/-- The value resolved by a successful `convertImageBufferWithFallback`
call: output bytes, mime type, and whether a CloudConvert job id was
attached. -/
structure ConvOut where
  buffer : Buf
  mime : String
  cloudJob : Bool
deriving DecidableEq

instance exceptDecEq {ε α : Type} [DecidableEq ε] [DecidableEq α] :
    DecidableEq (Except ε α) := fun a b =>
  match a, b with
  | .ok x, .ok y =>
    if h : x = y then .isTrue (by rw [h]) else .isFalse (fun hh => h (Except.ok.inj hh))
  | .error x, .error y =>
    if h : x = y then .isTrue (by rw [h]) else .isFalse (fun hh => h (Except.error.inj hh))
  | .ok _, .error _ => .isFalse (fun hh => Except.noConfusion hh)
  | .error _, .ok _ => .isFalse (fun hh => Except.noConfusion hh)

/-- A `convertImageBufferWithFallback` run: the resolved-or-thrown
result plus the job specs submitted to CloudConvert during the run. -/
structure ConvAttempt where
  result : Except String ConvOut
  submittedJobs : List JobSpec
deriving DecidableEq

/-- The mime type the local `sharp` branch of lines 260-285 reports for
a normalized output format (unknown formats fall through to the PNG
branch of line 284). -/
def sharpMimeFor (fmt : String) : String :=
  if fmt == "jpeg" || fmt == "jpg" then "image/jpeg"
  else if fmt == "png" then "image/png"
  else if fmt == "webp" then "image/webp"
  else if fmt == "avif" then "image/avif"
  else if fmt == "tiff" then "image/tiff"
  else if fmt == "bmp" then "image/bmp"
  else "image/png"

/-- `mime.lookup(downloadedPaths[0]) || 'application/octet-stream'`
(lines 239, 299). -/
def lookupMime (env : Env) (ext : String) : String :=
  match env.mimeLookup ext with
  | some m => m
  | none => "application/octet-stream"

/-- `convertImageBufferWithFallback(buffer, outFormat, quality, maxDim,
originalName)`, lines 230-307.  The HEIC force check calls
`isHeicByName(originalName, null)`, i.e. it consults only the file
name, never the declared kind.  The temp-file extension passed to
CloudConvert is `path.extname(originalName) || '.heic'` in the forced
branch (line 234) and `|| '.bin'` in the fallback branch (line 293).
In the forced branch the source reads `downloadedPaths[0]` without an
emptiness check (line 238), so an empty download list surfaces as a
thrown `TypeError`; the fallback branch checks emptiness explicitly
(line 297). -/
def convertImageBufferWithFallback (env : Env) (buffer : Buf) (outFormat : String)
    (quality : Int) (maxDim : Nat) (originalName : String) : ConvAttempt :=
  if isHeicByName originalName none && env.cloudKey then
    let tmpExt := if extname originalName == "" then ".heic" else extname originalName
    let r := cloudConvertFallbackConvert env buffer (lowerStr tmpExt) outFormat emptyOptions
    match r.1 with
    | .ok [] => ⟨.error "TypeError: downloadedPaths[0] is undefined", r.2⟩
    | .ok (d :: _) => ⟨.ok ⟨d.bytes, lookupMime env d.ext, true⟩, r.2⟩
    | .error e => ⟨.error e, r.2⟩
  else
    let localRes : Option ConvOut :=
      if env.sharpAvailable then
        let q := clampQuality (.int quality)
        let fmt := lowerStr (if outFormat == "" then "jpeg" else outFormat)
        match env.localConvert buffer fmt q maxDim with
        | some outBuf => some ⟨outBuf, sharpMimeFor fmt, false⟩
        | none => none
      else none
    match localRes with
    | some out => ⟨.ok out, []⟩
    | none =>
      if env.cloudKey = false then
        ⟨.error "No local sharp and CLOUDCONVERT_API_KEY not configured", []⟩
      else
        let tmpExt := if extname originalName == "" then ".bin" else extname originalName
        let r := cloudConvertFallbackConvert env buffer (lowerStr tmpExt) outFormat emptyOptions
        match r.1 with
        | .ok [] => ⟨.error "CloudConvert produced no files", r.2⟩
        | .ok (d :: _) => ⟨.ok ⟨d.bytes, lookupMime env d.ext, true⟩, r.2⟩
        | .error e => ⟨.error e, r.2⟩

/-! ## `pdfToImagesBuffersWithFallback` (lines 310-360) -/

/-- The per-page rasterization loop of lines 327-338: pages are
rasterized in order and the loop `break`s at the first page whose
rasterization throws, keeping the successfully rasterized prefix.
`i` is the next page index and the second argument the count of pages
still to visit (`pageCount - i` for the source's
`for (let i = 0; i < pageCount; i++)`). -/
def rasterFrom (env : Env) (buf : Buf) (i : Nat) : Nat → List Buf
  | 0 => []
  | remaining + 1 =>
    match env.rasterizePage buf i with
    | some b => b :: rasterFrom env buf (i + 1) remaining
    | none => []

/-- `pdfToImagesBuffersWithFallback(pdfBuffer, outFormat, quality,
maxDim, originalName)`, lines 310-360.  The returned flag records
whether a CloudConvert job was used (`cloudJobId` non-null).  Local
path: when the page count is unknown (`0`), one single-page
rasterization attempt; otherwise the prefix loop — and the local result
is only rejected when it is empty (line 339), in which case control
falls through to the CloudConvert branch.  The quality and max-dim
arguments feed the codec oracles and are therefore not consulted
here. -/
def pdfToImagesBuffersWithFallback (env : Env) (pdfBuffer : Buf) (outFormat : String) :
    Except String (List Buf × Bool) :=
  let localResult : Option (List Buf) :=
    if env.sharpAvailable then
      let n := env.pageCount pdfBuffer
      if n = 0 then
        match env.rasterizeSingle pdfBuffer with
        | some b => some [b]
        | none => none
      else
        let results := rasterFrom env pdfBuffer 0 n
        if results.length > 0 then some results else none
    else none
  match localResult with
  | some bufs => .ok (bufs, false)
  | none =>
    if env.cloudKey = false then
      .error "Server cannot rasterize PDF locally and CLOUDCONVERT_API_KEY not configured"
    else
      match (cloudConvertFallbackConvert env pdfBuffer ".pdf"
              (if outFormat == "png" then "png" else "jpg") emptyOptions).1 with
      | .error e => .error e
      | .ok [] => .error "CloudConvert produced no files for PDF"
      | .ok files => .ok (files.map (fun d => d.bytes), true)

/-! ## `imagesToPdf` (lines 363-416) -/

/-- One page of the assembled `pdf-lib` document: an embedded image
sized to its pixel dimensions, or the fixed 600 by 800 placeholder page
carrying a short diagnostic text. -/
inductive Page where
  | image (w h : Nat)
  | placeholder (w h : Nat) (msg : String)
deriving DecidableEq

/-- The serialized bytes of an output: raw bytes passed through or
produced by a codec, or a `pdf-lib` document identified by its page
list. -/
inductive OutBytes where
  | raw (b : Buf)
  | pdfDoc (pages : List Page)
deriving DecidableEq

/-- The per-image body of the `imagesToPdf` loop, lines 365-413:
(1) best-effort JPEG pre-compression through
`convertImageBufferWithFallback(buf, 'jpeg', quality, maxDim)` (the
default `originalName = 'input'` applies), falling back to the raw
buffer on error; (2) `embedJpg`; (3) on failure, `sharp` PNG re-encode
(falling back to the buffer itself when `sharp` is unavailable or
throws) then `embedPng`; (4) on failure, the placeholder page. -/
def embedOnePage (env : Env) (quality : Int) (maxDim : Nat) (buf : Buf) : Page :=
  let compressed :=
    match (convertImageBufferWithFallback env buf "jpeg" quality maxDim "input").result with
    | .ok conv => conv.buffer
    | .error _ => buf
  match env.embedJpg compressed with
  | some (w, h) => .image w h
  | none =>
    let pngBuf :=
      if env.sharpAvailable then
        match env.sharpPngReencode compressed with
        | some b => b
        | none => compressed
      else compressed
    match env.embedPng pngBuf with
    | some (w, h) => .image w h
    | none => .placeholder 600 800 "Could not embed image on this page (conversion failed)."

/-- `imagesToPdf(buffers, quality, maxDim)`, lines 363-416: one loop
iteration per input buffer. -/
def imagesToPdf (env : Env) (buffers : List Buf) (quality : Int) (maxDim : Nat) : List Page :=
  buffers.map (embedOnePage env quality maxDim)

/-! ## The bulk `/api/convert` handler (lines 419-523) -/

/-- One uploaded file as the handler sees it.  `mimetype` models the
`f.mimetype || mime.lookup(f.path) || 'application/octet-stream'`
chain of line 441 (multer always supplies a non-empty mimetype, so the
field holds the resolved value). -/
structure InputFile where
  originalname : String
  mimetype : String
  content : Buf
deriving DecidableEq

/-- A produced output as pushed onto the `outputs` array: name, bytes,
mime type, and the optional cautionary `note`. -/
structure Output where
  name : String
  buffer : OutBytes
  mime : String
  note : Option String
deriving DecidableEq

/-- The parsed request fields of lines 419-426.  `targetFormat` is the
raw form value (normalized by the handler), `quality` the raw quality
field, `zipFlag` the parsed `req.body.zip === 'true'` boolean,
`compressPdf` the parsed `req.body.compress === 'true'` boolean. -/
structure Request where
  files : List InputFile
  targetFormat : String
  quality : QVal
  maxDim : Nat
  zipFlag : Bool
  compressPdf : Bool

/-- `(req.body.targetFormat || 'pdf').toLowerCase()` (line 422). -/
def normTarget (raw : String) : String :=
  if raw == "" then "pdf" else lowerStr raw

/-- The per-file body of the `for (const f of req.files)` loop, lines
439-492, with `targetFormat` already normalized and `quality` already
clamped.  Every branch pushes at least one output; a failed conversion
is caught at this scope and degrades to the original bytes with the
error message as note. -/
def processFile (env : Env) (targetFormat : String) (quality : Int) (maxDim : Nat)
    (compressPdf : Bool) (f : InputFile) : List Output :=
  let inMime := f.mimetype
  let base := baseName f.originalname
  if isImageMime inMime || isHeicByName f.originalname (some inMime) then
    if targetFormat == "pdf" then
      [⟨base ++ ".pdf", .pdfDoc (imagesToPdf env [f.content] quality maxDim),
        "application/pdf", none⟩]
    else
      match (convertImageBufferWithFallback env f.content targetFormat quality maxDim
              f.originalname).result with
      | .ok conv =>
        let ext := match env.mimeExtension conv.mime with
          | some e => e
          | none => targetFormat
        [⟨base ++ "." ++ ext, .raw conv.buffer, conv.mime, none⟩]
      | .error e =>
        [⟨base ++ "_original" ++ extname f.originalname, .raw f.content, inMime, some e⟩]
  else if isPdfMime inMime f.originalname then
    if targetFormat == "pdf" then
      if compressPdf = false then
        [⟨base ++ ".pdf", .raw f.content, "application/pdf", none⟩]
      else
        match pdfToImagesBuffersWithFallback env f.content "jpg" with
        | .ok (bufs, _) =>
          if bufs.isEmpty then
            [⟨base ++ "_original.pdf", .raw f.content, "application/pdf",
              some "Cannot rasterize PDF pages"⟩]
          else
            [⟨base ++ "_compressed.pdf", .pdfDoc (imagesToPdf env bufs quality maxDim),
              "application/pdf", none⟩]
        | .error e =>
          [⟨base ++ "_original.pdf", .raw f.content, "application/pdf", some e⟩]
    else
      match pdfToImagesBuffersWithFallback env f.content
              (if targetFormat == "png" then "png" else "jpg") with
      | .ok (bufs, _) =>
        if bufs.isEmpty then
          [⟨base ++ "_original.pdf", .raw f.content, "application/pdf",
            some "Unable to rasterize PDF pages"⟩]
        else
          let ext := if targetFormat == "png" then "png" else "jpg"
          bufs.enum.map (fun p =>
            ⟨base ++ "_page" ++ natRepr (p.1 + 1) ++ "." ++ ext, .raw p.2,
             if ext == "png" then "image/png" else "image/jpeg", none⟩)
      | .error e =>
        [⟨base ++ "_original.pdf", .raw f.content, "application/pdf", some e⟩]
  else
    [⟨f.originalname, .raw f.content, inMime, some "Unknown input type, returned original."⟩]

/-- The `outputs` array the handler builds, lines 431-493: the
combined-PDF special case when the target is `pdf`, every file passes
`isImageMime`, and at least one file was uploaded; otherwise the
per-file loop. -/
def convertOutputs (env : Env) (req : Request) : List Output :=
  let targetFormat := normTarget req.targetFormat
  let quality := clampQuality req.quality
  let onlyImages := req.files.all (fun f => isImageMime f.mimetype)
  if targetFormat == "pdf" && onlyImages && decide (1 ≤ req.files.length) then
    [⟨env.freshName ++ ".pdf",
      .pdfDoc (imagesToPdf env (req.files.map (fun f => f.content)) quality req.maxDim),
      "application/pdf", none⟩]
  else
    req.files.flatMap (processFile env targetFormat quality req.maxDim req.compressPdf)

/-- The HTTP response shape: the 400 for an empty upload, a zip archive
whose entries are appended in output order, a direct single output
(whose note, when present, is surfaced as the advisory `X-Note`
header), or the 500 of the outer catch. -/
inductive Response where
  | badRequest (msg : String)
  | zip (entries : List (String × OutBytes))
  | single (out : Output)
  | serverError (msg : String)
deriving DecidableEq

/-- The `/api/convert` handler, lines 419-523.  `makeZip` is
`req.body.zip === 'true' || req.files.length > 1` (line 425); the
packaging decision is `makeZip || outputs.length > 1` (line 502).  When
neither holds the handler reads `outputs[0]`; the impossible empty case
surfaces through the outer catch as a 500. -/
def apiConvert (env : Env) (req : Request) : Response :=
  if req.files.isEmpty then .badRequest "No files uploaded"
  else
    let outputs := convertOutputs env req
    let makeZip := req.zipFlag || decide (1 < req.files.length)
    if makeZip || decide (1 < outputs.length) then
      .zip (outputs.map (fun o => (o.name, o.buffer)))
    else
      match outputs with
      | o :: _ => .single o
      | [] => .serverError "Processing error"

/-! ## Auxiliary lemmas -/

lemma data_append (s t : String) : (s ++ t).data = s.data ++ t.data := rfl

lemma readNat_append (ds : List Nat) (d : Nat) :
    readNat (ds ++ [d]) = readNat ds * 10 + d := by
  simp [readNat, List.foldl_append]

lemma readNat_natDigitsAux : ∀ fuel n, n ≤ fuel → readNat (natDigitsAux fuel n) = n := by
  intro fuel
  induction fuel with
  | zero =>
    intro n h
    have hn : n = 0 := Nat.le_zero.mp h
    subst hn
    simp [natDigitsAux, readNat]
  | succ fuel ih =>
    intro n h
    rw [natDigitsAux]
    by_cases h10 : n < 10
    · simp [h10, readNat]
    · rw [if_neg h10, readNat_append, ih (n / 10) (by omega)]
      omega

lemma readNat_natDigitsList (n : Nat) : readNat (natDigitsList n) = n :=
  readNat_natDigitsAux n n le_rfl

lemma natDigitsAux_lt : ∀ fuel n d, d ∈ natDigitsAux fuel n → d < 10 := by
  intro fuel
  induction fuel with
  | zero =>
    intro n d hd
    simp [natDigitsAux] at hd
    omega
  | succ fuel ih =>
    intro n d hd
    rw [natDigitsAux] at hd
    by_cases h10 : n < 10
    · rw [if_pos h10] at hd
      simp at hd
      omega
    · rw [if_neg h10] at hd
      rcases List.mem_append.mp hd with hd | hd
      · exact ih _ _ hd
      · simp at hd
        omega

lemma digitChar_injOn : ∀ d e : Fin 10, digitChar d.val = digitChar e.val → d = e := by decide

lemma map_digitChar_inj : ∀ xs ys : List Nat, (∀ d ∈ xs, d < 10) → (∀ d ∈ ys, d < 10) →
    xs.map digitChar = ys.map digitChar → xs = ys := by
  intro xs
  induction xs with
  | nil =>
    intro ys _ _ h
    cases ys with
    | nil => rfl
    | cons y ys => simp at h
  | cons x xs ih =>
    intro ys hx hy h
    cases ys with
    | nil => simp at h
    | cons y ys =>
      simp only [List.map_cons, List.cons.injEq] at h
      have hxy : x = y := by
        have hfin := digitChar_injOn ⟨x, hx x (by simp)⟩ ⟨y, hy y (by simp)⟩ h.1
        simpa using congrArg Fin.val hfin
      have htail := ih ys (fun d hd => hx d (by simp [hd])) (fun d hd => hy d (by simp [hd])) h.2
      rw [hxy, htail]

lemma natRepr_data_inj {m n : Nat}
    (h : (natRepr m).data = (natRepr n).data) : m = n := by
  have hmap : (natDigitsList m).map digitChar = (natDigitsList n).map digitChar := h
  have hlist := map_digitChar_inj _ _
    (fun d hd => natDigitsAux_lt m m d hd) (fun d hd => natDigitsAux_lt n n d hd) hmap
  have hread := congrArg readNat hlist
  rwa [readNat_natDigitsAux m m le_rfl, readNat_natDigitsAux n n le_rfl] at hread

lemma pageName_inj (base ext : String) (i j : Nat)
    (h : base ++ "_page" ++ natRepr (i + 1) ++ "." ++ ext =
         base ++ "_page" ++ natRepr (j + 1) ++ "." ++ ext) : i = j := by
  have hd := congrArg String.data h
  simp only [data_append, List.append_assoc] at hd
  have h1 := List.append_cancel_left hd
  have h2 := List.append_cancel_left h1
  rw [← List.append_assoc, ← List.append_assoc] at h2
  have h3 := List.append_cancel_right h2
  have h4 := List.append_cancel_right h3
  have := natRepr_data_inj h4
  omega

lemma embedOnePage_shape (env : Env) (q : Int) (d : Nat) (b : Buf) :
    (∃ w h, embedOnePage env q d b = Page.image w h) ∨
    (∃ m, embedOnePage env q d b = Page.placeholder 600 800 m) := by
  simp only [embedOnePage]
  repeat' split
  all_goals first
    | exact Or.inl ⟨_, _, rfl⟩
    | exact Or.inr ⟨_, rfl⟩

lemma processFile_ne_nil (env : Env) (tf : String) (q : Int) (md : Nat) (cp : Bool)
    (f : InputFile) : processFile env tf q md cp f ≠ [] := by
  simp only [processFile]
  repeat' split
  all_goals intro hmap
  all_goals simp at hmap
  all_goals simp_all

lemma convertOutputs_ne_nil (env : Env) (req : Request) (hne : req.files ≠ []) :
    convertOutputs env req ≠ [] := by
  simp only [convertOutputs]
  split
  · simp
  · cases hf : req.files with
    | nil => exact absurd hf hne
    | cons a l =>
      simp only [List.flatMap_cons, ne_eq, List.append_eq_nil]
      intro h
      exact processFile_ne_nil env _ _ _ _ a h.1

lemma pollAux_count (ticks : Nat → PollTick) :
    ∀ fuel i last, (pollAux ticks i fuel last).2 ≤ i + fuel := by
  intro fuel
  induction fuel with
  | zero =>
    intro i last
    cases last with
    | none => simp [pollAux]
    | some s => by_cases h : s == "finished" <;> simp [pollAux, h]
  | succ fuel ih =>
    intro i last
    rw [pollAux]
    cases ht : ticks i with
    | netErr => exact le_trans (ih (i + 1) none) (by omega)
    | status s =>
      by_cases h1 : s == "finished"
      · simp [h1]
        try omega
      · by_cases h2 : s == "error" || s == "failed"
        · simp [h1, h2]
          try omega
        · simp only [h1, h2, Bool.false_eq_true, if_false]
          exact le_trans (ih (i + 1) (some s)) (by omega)

/-- A poll tick is terminal when it reports a status that `break`s or
throws inside the loop. -/
def isTerminalTick : PollTick → Bool
  | .netErr => false
  | .status s => s == "finished" || s == "error" || s == "failed"

lemma pollAux_all_nonterminal (ticks : Nat → PollTick) :
    ∀ fuel i last,
      (∀ j, i ≤ j → j < i + fuel → isTerminalTick (ticks j) = false) →
      (last = none ∨ ∃ s, last = some s ∧ (s == "finished") = false) →
      ∃ l, (pollAux ticks i fuel last).1 = PollResult.timedOut l := by
  intro fuel
  induction fuel with
  | zero =>
    intro i last _ hlast
    rcases hlast with rfl | ⟨s, rfl, hs⟩
    · exact ⟨none, rfl⟩
    · exact ⟨some s, by simp [pollAux, hs]⟩
  | succ fuel ih =>
    intro i last hnt hlast
    rw [pollAux]
    have hi := hnt i le_rfl (by omega)
    cases ht : ticks i with
    | netErr =>
      exact ih (i + 1) none (fun j h1 h2 => hnt j (by omega) (by omega)) (Or.inl rfl)
    | status s =>
      rw [ht] at hi
      simp only [isTerminalTick, Bool.or_eq_false_iff] at hi
      obtain ⟨⟨hf, he⟩, hfl⟩ := hi
      simp only [hf, he, hfl, Bool.or_self, Bool.false_eq_true, if_false]
      exact ih (i + 1) (some s) (fun j h1 h2 => hnt j (by omega) (by omega))
        (Or.inr ⟨s, rfl, hf⟩)

lemma sanityCheck_ok (a : String) (l : List String) : sanityCheck a l = Except.ok () := by
  unfold sanityCheck sanityCheckBody tryCatch
  split <;> rfl

lemma cloudConvertFallbackConvert_jobs (env : Env) (b : Buf) (ie of : String)
    (opts : CCOptions) :
    (cloudConvertFallbackConvert env b ie of opts).2 =
      if env.cloudKey = false then [] else [mkJobSpec of opts] := by
  simp only [cloudConvertFallbackConvert]
  split
  · rfl
  · cases h : env.runCloudJob b (mkJobSpec of opts) with
    | error e => simp [h]
    | ok files => simp [h, sanityCheck_ok]

/-! ## Concrete environments used for witnesses and counterexamples -/

/-- A deployment with neither the local codec nor the remote credential:
every conversion attempt fails and every file degrades. -/
def noSharpEnv : Env :=
  ⟨false, false,
   fun _ _ _ _ => none,
   fun _ => none,
   fun _ => none,
   fun _ => none,
   fun _ => 0,
   fun _ _ => none,
   fun _ => none,
   fun _ _ => Except.error "no network",
   fun _ => none,
   fun _ => none,
   "gen"⟩

/-- A deployment where the local codec works (identity pipelines, JPEG
embedding succeeds at 5x5) but the source document has two pages of
which only page 0 can be rasterized. -/
def partialRasterEnv : Env :=
  ⟨true, false,
   fun b _ _ _ => some b,
   fun b => some b,
   fun _ => some (5, 5),
   fun _ => some (5, 5),
   fun _ => 2,
   fun _ i => if i = 0 then some [10] else none,
   fun _ => none,
   fun _ _ => Except.error "no network",
   fun _ => none,
   fun _ => none,
   "gen"⟩

/-- A deployment with both capabilities, whose local codec output
depends on the requested quality (the output byte is the clamped
quality value), and whose remote service always returns one `.jpg`
file. -/
def qualitySensitiveEnv : Env :=
  ⟨true, true,
   fun _ _ q _ => some [q.toNat],
   fun b => some b,
   fun _ => some (5, 5),
   fun _ => some (5, 5),
   fun _ => 0,
   fun _ _ => none,
   fun _ => none,
   fun _ _ => Except.ok [⟨[0], ".jpg"⟩],
   fun _ => some "image/jpeg",
   fun _ => some "jpg",
   "gen"⟩

/-- A deployment whose remote service answers every job with a single
downloaded file carrying the `.jpg` extension — the shape the
post-download sanity check is meant to reject. -/
def sameExtEnv : Env :=
  ⟨false, true,
   fun _ _ _ _ => none,
   fun _ => none,
   fun _ => none,
   fun _ => none,
   fun _ => 0,
   fun _ _ => none,
   fun _ => none,
   fun _ _ => Except.ok [⟨[7], ".jpg"⟩],
   fun _ => some "image/jpeg",
   fun _ => some "jpg",
   "gen"⟩

instance : Inhabited Page := ⟨Page.image 0 0⟩

/-- A two-image batch targeting `pdf` with the bundle flag off: the
handler combines it into one output, yet zips it because two files were
uploaded. -/
def reqC6 : Request :=
  ⟨[⟨"a.jpg", "image/jpeg", [1]⟩, ⟨"b.jpg", "image/jpeg", [2]⟩],
   "pdf", QVal.int 80, 100, false, false⟩

/-- Two files with the same base name targeting `jpg`. -/
def reqC7 : Request :=
  ⟨[⟨"a.jpg", "image/jpeg", [1]⟩, ⟨"a.jpg", "image/jpeg", [2]⟩],
   "jpg", QVal.int 80, 100, false, false⟩

/-- A batch of two unknown-type files with the bundle flag set. -/
def reqC7b : Request :=
  ⟨[⟨"x.dat", "application/x-data", [1]⟩, ⟨"y.dat", "application/x-data", [2]⟩],
   "jpg", QVal.int 80, 100, true, false⟩

/-- A single unknown-type file with the bundle flag off. -/
def reqSingle : Request :=
  ⟨[⟨"unknown.xyz", "application/x-thing", [5]⟩],
   "jpg", QVal.int 80, 100, false, false⟩

lemma files_isEmpty_false (req : Request) (hne : req.files ≠ []) :
    req.files.isEmpty = false := by
  cases hf : req.files with
  | nil => exact absurd hf hne
  | cons a l => rfl

lemma apiConvert_zip (env : Env) (req : Request) (hne : req.files ≠ [])
    (h : req.zipFlag = true ∨ 1 < req.files.length ∨ 1 < (convertOutputs env req).length) :
    apiConvert env req =
      Response.zip ((convertOutputs env req).map (fun o => (o.name, o.buffer))) := by
  have hnem := files_isEmpty_false req hne
  rcases h with h | h | h <;> simp [apiConvert, hnem, h]

lemma apiConvert_single (env : Env) (req : Request) (hne : req.files ≠ [])
    (hzf : req.zipFlag = false) (hlen : req.files.length ≤ 1)
    (o : Output) (ho : convertOutputs env req = [o]) :
    apiConvert env req = Response.single o := by
  have hnem := files_isEmpty_false req hne
  have h1 : decide (1 < req.files.length) = false := by
    simp
    omega
  simp [apiConvert, hnem, hzf, h1, ho]

lemma pageOutputs_names_nodup (base ext m : String) (bufs : List Buf) :
    ((bufs.enum.map (fun p => (⟨base ++ "_page" ++ natRepr (p.1 + 1) ++ "." ++ ext,
        OutBytes.raw p.2, m, none⟩ : Output))).map (fun o => o.name)).Nodup := by
  rw [List.map_map]
  have hcomp : ((fun o : Output => o.name) ∘
      (fun p : Nat × Buf => (⟨base ++ "_page" ++ natRepr (p.1 + 1) ++ "." ++ ext,
        OutBytes.raw p.2, m, none⟩ : Output))) =
      ((fun i : Nat => base ++ "_page" ++ natRepr (i + 1) ++ "." ++ ext) ∘ Prod.fst) := rfl
  rw [hcomp, ← List.map_map]
  have henum : bufs.enum.map Prod.fst = List.range bufs.length := by simp
  rw [henum]
  exact (List.nodup_range bufs.length).map (fun i j h => pageName_inj base ext i j h)

lemma processFile_names_nodup (env : Env) (tf : String) (q : Int) (md : Nat) (cp : Bool)
    (f : InputFile) : ((processFile env tf q md cp f).map (fun o => o.name)).Nodup := by
  simp only [processFile]
  repeat' split
  all_goals first
    | exact pageOutputs_names_nodup _ _ _ _
    | simp

/-! ## Claim theorems -/

/-- C1: for every ordered list of input image buffers, the document
produced by `imagesToPdf` has exactly one page per input image — each
page is either a successfully embedded image (primary JPEG or secondary
PNG embedding) or the fixed-size 600x800 placeholder page with a
diagnostic text — so the page count never drops below the number of
inputs and no image is skipped. -/
theorem imagesToPdf_one_page_per_image (env : Env) (buffers : List Buf)
    (quality : Int) (maxDim : Nat) :
    (imagesToPdf env buffers quality maxDim).length = buffers.length ∧
    ∀ p ∈ imagesToPdf env buffers quality maxDim,
      (∃ w h, p = Page.image w h) ∨ (∃ m, p = Page.placeholder 600 800 m) := by
  constructor
  · simp [imagesToPdf]
  · intro p hp
    simp only [imagesToPdf, List.mem_map] at hp
    obtain ⟨b, _, rfl⟩ := hp
    exact embedOnePage_shape env quality maxDim b

/-- Witness for C1 at a concrete input: a two-image batch in the
no-capability deployment yields a two-page document whose first page
has the guaranteed shape. -/
theorem imagesToPdf_one_page_per_image_witness :
    (imagesToPdf noSharpEnv [[1], [2]] 80 100).length = 2 ∧
    ((∃ w h, (imagesToPdf noSharpEnv [[1], [2]] 80 100).headI = Page.image w h) ∨
     (∃ m, (imagesToPdf noSharpEnv [[1], [2]] 80 100).headI = Page.placeholder 600 800 m)) := by
  have h := imagesToPdf_one_page_per_image noSharpEnv [[1], [2]] 80 100
  exact ⟨h.1, h.2 _ (by decide)⟩

/-- C3 (code bug): the post-download sanity check does construct and
throw the fatal conversion error when every downloaded extension equals
the input extension, but the throw sits inside its own try/catch whose
handler only logs, so `cloudConvertFallbackConvert` nevertheless
returns the downloaded files as a successful result instead of letting
the error reach its caller. -/
theorem sanity_check_error_swallowed :
    sanityCheckBody ".jpg" [".jpg"] =
      Except.error "CloudConvert produced files with same extension as input" ∧
    sanityCheck ".jpg" [".jpg"] = Except.ok () ∧
    (cloudConvertFallbackConvert sameExtEnv [1] ".jpg" "jpg" emptyOptions).1 =
      Except.ok [⟨[7], ".jpg"⟩] := by decide

/-- C4: the remote job polling loop performs at most `maxPolls = 90`
polls on the fixed 2000 ms interval; a poll whose network request fails
is swallowed and consumes exactly one attempt without failing the job;
when the attempt cap is exhausted without a terminal status the loop
exits with the timeout-kind error, which is distinct from the
failure-kind error produced when the service itself reports terminal
failure. -/
theorem poll_bounded_timeout_distinct (ticks : Nat → PollTick) :
    (pollJob ticks).2 ≤ maxPolls ∧
    pollIntervalMs = 2000 ∧
    (∀ i fuel last, ticks i = PollTick.netErr →
      pollAux ticks i (fuel + 1) last = pollAux ticks (i + 1) fuel none) ∧
    ((∀ j, j < maxPolls → isTerminalTick (ticks j) = false) →
      ∃ l, (pollJob ticks).1 = PollResult.timedOut l) ∧
    (∀ l s, PollResult.timedOut l ≠ PollResult.serviceFailed s) := by
  refine ⟨pollAux_count ticks maxPolls 0 none, rfl, ?_, ?_, ?_⟩
  · intro i fuel last ht
    rw [pollAux, ht]
  · intro hnt
    exact pollAux_all_nonterminal ticks maxPolls 0 none
      (fun j h1 h2 => hnt j (by omega)) (Or.inl rfl)
  · intro l s h
    exact PollResult.noConfusion h

/-- Witness for C4 at a concrete input: a network that fails every
poll exhausts the cap and times out with no recorded status. -/
theorem poll_bounded_timeout_distinct_witness :
    (pollJob (fun _ => PollTick.netErr)).2 ≤ maxPolls ∧
    (∃ l, (pollJob (fun _ => PollTick.netErr)).1 = PollResult.timedOut l) :=
  ⟨(poll_bounded_timeout_distinct (fun _ => PollTick.netErr)).1,
   (poll_bounded_timeout_distinct (fun _ => PollTick.netErr)).2.2.2.1
     (fun _ _ => rfl)⟩

/-- C8: for every quality input the clamped value lies in [10, 95]:
integer inputs above 95 clamp to 95, integer inputs below 10 clamp to
10, and non-numeric or missing input defaults to 80. -/
theorem clampQuality_range (q : QVal) :
    10 ≤ clampQuality q ∧ clampQuality q ≤ 95 ∧
    (∀ n : Int, 95 < n → clampQuality (QVal.int n) = 95) ∧
    (∀ n : Int, n < 10 → clampQuality (QVal.int n) = 10) ∧
    clampQuality QVal.nan = 80 ∧ clampQuality QVal.missing = 80 := by
  refine ⟨?_, ?_, ?_, ?_, rfl, rfl⟩
  · cases q <;> simp [clampQuality]
  · cases q <;> simp [clampQuality]
  · intro n h
    simp [clampQuality]
    omega
  · intro n h
    simp [clampQuality]
    omega

/-- Witness for C8 at concrete inputs: 200 clamps to 95 and -5 clamps
to 10. -/
theorem clampQuality_range_witness :
    clampQuality (QVal.int 200) = 95 ∧ clampQuality (QVal.int (-5)) = 10 :=
  ⟨(clampQuality_range (QVal.int 200)).2.2.1 200 (by norm_num),
   (clampQuality_range (QVal.int (-5))).2.2.2.1 (-5) (by norm_num)⟩

/-- C2: in a three-file batch whose second file is an image that fails
conversion irrecoverably (its converter throws), the handler still
produces the outputs of files one and three, degrades file two to its
original bytes with the error message attached as a note, and responds
with the success-shaped zip archive rather than an error. -/
theorem batch_single_failure_isolated (env : Env) (tfRaw : String) (q : QVal)
    (md : Nat) (zf cp : Bool) (f1 f2 f3 : InputFile) (e : String)
    (htf : normTarget tfRaw ≠ "pdf")
    (himg : (isImageMime f2.mimetype || isHeicByName f2.originalname (some f2.mimetype)) = true)
    (hfail : (convertImageBufferWithFallback env f2.content (normTarget tfRaw)
        (clampQuality q) md f2.originalname).result = Except.error e) :
    apiConvert env ⟨[f1, f2, f3], tfRaw, q, md, zf, cp⟩ =
      Response.zip
        ((processFile env (normTarget tfRaw) (clampQuality q) md cp f1 ++
          ⟨baseName f2.originalname ++ "_original" ++ extname f2.originalname,
            OutBytes.raw f2.content, f2.mimetype, some e⟩ ::
          processFile env (normTarget tfRaw) (clampQuality q) md cp f3).map
          (fun o => (o.name, o.buffer))) := by
  have htf' : (normTarget tfRaw == "pdf") = false := beq_eq_false_iff_ne.mpr htf
  have hpf2 : processFile env (normTarget tfRaw) (clampQuality q) md cp f2 =
      [⟨baseName f2.originalname ++ "_original" ++ extname f2.originalname,
        OutBytes.raw f2.content, f2.mimetype, some e⟩] := by
    simp [processFile, himg, htf', hfail]
  simp [apiConvert, convertOutputs, htf', hpf2, List.flatMap_cons]

/-- Witness for C2 at a concrete input: in the no-capability deployment
every image conversion throws, so a three-image batch to `jpg` yields
three degraded outputs bundled in a zip. -/
theorem batch_single_failure_isolated_witness :
    apiConvert noSharpEnv ⟨[⟨"a.jpg", "image/jpeg", [1]⟩, ⟨"b.jpg", "image/jpeg", [2]⟩,
        ⟨"c.jpg", "image/jpeg", [3]⟩], "jpg", QVal.int 80, 100, false, false⟩ =
      Response.zip
        ((processFile noSharpEnv (normTarget "jpg") (clampQuality (QVal.int 80)) 100 false
            ⟨"a.jpg", "image/jpeg", [1]⟩ ++
          ⟨baseName "b.jpg" ++ "_original" ++ extname "b.jpg",
            OutBytes.raw [2], "image/jpeg",
            some "No local sharp and CLOUDCONVERT_API_KEY not configured"⟩ ::
          processFile noSharpEnv (normTarget "jpg") (clampQuality (QVal.int 80)) 100 false
            ⟨"c.jpg", "image/jpeg", [3]⟩).map (fun o => (o.name, o.buffer))) :=
  batch_single_failure_isolated noSharpEnv "jpg" (QVal.int 80) 100 false false
    ⟨"a.jpg", "image/jpeg", [1]⟩ ⟨"b.jpg", "image/jpeg", [2]⟩ ⟨"c.jpg", "image/jpeg", [3]⟩
    "No local sharp and CLOUDCONVERT_API_KEY not configured"
    (by decide) (by decide) (by decide)

/-- C9: for every batch in which every input file passes the image-mime
check and the normalized target format is `pdf`, the handler produces
exactly one combined output document whose page list has one page per
input image, rather than one document per file. -/
theorem all_images_combined_single_pdf (env : Env) (req : Request)
    (hne : req.files ≠ [])
    (himg : req.files.all (fun f => isImageMime f.mimetype) = true)
    (htf : normTarget req.targetFormat = "pdf") :
    convertOutputs env req =
      [⟨env.freshName ++ ".pdf",
        OutBytes.pdfDoc (imagesToPdf env (req.files.map (fun f => f.content))
          (clampQuality req.quality) req.maxDim),
        "application/pdf", none⟩] ∧
    (imagesToPdf env (req.files.map (fun f => f.content))
        (clampQuality req.quality) req.maxDim).length = req.files.length := by
  constructor
  · have h1 : (normTarget req.targetFormat == "pdf") = true := beq_iff_eq.mpr htf
    have h2 : 1 ≤ req.files.length := List.length_pos.mpr hne
    simp [convertOutputs, h1, himg, h2]
  · simp [imagesToPdf]

/-- Witness for C9 at a concrete input: a two-image batch to `pdf` in
the no-capability deployment yields the single combined document with
two pages. -/
theorem all_images_combined_single_pdf_witness :
    convertOutputs noSharpEnv
        ⟨[⟨"a.jpg", "image/jpeg", [1]⟩, ⟨"b.png", "image/png", [2]⟩],
          "pdf", QVal.int 80, 100, false, false⟩ =
      [⟨noSharpEnv.freshName ++ ".pdf",
        OutBytes.pdfDoc (imagesToPdf noSharpEnv [[1], [2]] (clampQuality (QVal.int 80)) 100),
        "application/pdf", none⟩] ∧
    (imagesToPdf noSharpEnv [[1], [2]] (clampQuality (QVal.int 80)) 100).length = 2 :=
  all_images_combined_single_pdf noSharpEnv
    ⟨[⟨"a.jpg", "image/jpeg", [1]⟩, ⟨"b.png", "image/png", [2]⟩],
      "pdf", QVal.int 80, 100, false, false⟩
    (by decide) (by decide) (by decide)

/-- C10 counterexample: a file whose declared kind is `image/heic` but
whose name is `photo.jpg` is treated as HEIC by the routing check
(`isHeicByName` with the declared kind), yet its conversion is not
forced through the remote path — no job is submitted at all even though
the remote credential is configured — and the requested quality does
change the resulting bytes, refuting both halves of the claim for
kind-declared HEIC inputs. -/
theorem heic_kind_ignored_counterexample :
    isHeicByName "photo.jpg" (some "image/heic") = true ∧
    qualitySensitiveEnv.cloudKey = true ∧
    (convertImageBufferWithFallback qualitySensitiveEnv [1] "jpg" 20 100
        "photo.jpg").submittedJobs = [] ∧
    (convertImageBufferWithFallback qualitySensitiveEnv [1] "jpg" 20 100 "photo.jpg").result ≠
      (convertImageBufferWithFallback qualitySensitiveEnv [1] "jpg" 90 100 "photo.jpg").result := by
  decide

/-- C10 amended: only the file *name* triggers the forced-remote HEIC
path (the declared kind is ignored there, since the source calls
`isHeicByName(originalName, null)`); for a file whose name has a
HEIC/HEIF extension, with the remote credential configured, the run is
identical for any two quality and max-dimension settings and submits
exactly the one job spec built from an empty options object. -/
theorem heic_name_forced_remote_amended (env : Env) (buffer : Buf)
    (outFormat name : String) (q1 q2 : Int) (d1 d2 : Nat)
    (hheic : isHeicByName name none = true) (hkey : env.cloudKey = true) :
    convertImageBufferWithFallback env buffer outFormat q1 d1 name =
      convertImageBufferWithFallback env buffer outFormat q2 d2 name ∧
    (convertImageBufferWithFallback env buffer outFormat q1 d1 name).submittedJobs =
      [mkJobSpec outFormat emptyOptions] := by
  have hcond : (isHeicByName name none && env.cloudKey) = true := by
    simp [hheic, hkey]
  constructor
  · simp only [convertImageBufferWithFallback, hcond, if_true]
  · simp only [convertImageBufferWithFallback, hcond, if_true]
    have hjobs : (cloudConvertFallbackConvert env buffer
        (lowerStr (if extname name == "" then ".heic" else extname name))
        outFormat emptyOptions).2 = [mkJobSpec outFormat emptyOptions] := by
      rw [cloudConvertFallbackConvert_jobs]
      simp [hkey]
    rcases hr1 : (cloudConvertFallbackConvert env buffer
        (lowerStr (if extname name == "" then ".heic" else extname name))
        outFormat emptyOptions).1 with e | files
    · simp only [hr1]
      exact hjobs
    · cases files with
      | nil =>
        simp only [hr1]
        exact hjobs
      | cons d rest =>
        simp only [hr1]
        exact hjobs

/-- Witness for the amended C10 at a concrete input: a `.heic`-named
file converts identically at qualities 20 and 90 and submits the single
options-free job spec. -/
theorem heic_name_forced_remote_amended_witness :
    convertImageBufferWithFallback qualitySensitiveEnv [1] "jpg" 20 100 "x.heic" =
      convertImageBufferWithFallback qualitySensitiveEnv [1] "jpg" 90 100 "x.heic" ∧
    (convertImageBufferWithFallback qualitySensitiveEnv [1] "jpg" 20 100 "x.heic").submittedJobs =
      [mkJobSpec "jpg" emptyOptions] :=
  heic_name_forced_remote_amended qualitySensitiveEnv [1] "jpg" "x.heic" 20 90 100 100
    (by decide) rfl

/-- C5 counterexample: a two-page document whose second page cannot be
rasterized does NOT degrade to the original bytes with a note — the
per-page loop breaks, the one-page prefix is kept, and the compression
branch emits a truncated one-page `_compressed.pdf` with no note. -/
theorem compress_partial_raster_counterexample :
    partialRasterEnv.pageCount [9] = 2 ∧
    partialRasterEnv.rasterizePage [9] 1 = none ∧
    processFile partialRasterEnv "pdf" 80 100 true ⟨"doc.pdf", "application/pdf", [9]⟩ =
      [⟨"doc_compressed.pdf", OutBytes.pdfDoc [Page.image 5 5], "application/pdf", none⟩] := by
  decide

/-- C5 amended: in the compression branch, rasterization failure
degrades the file to its original bytes with a note only when NO page
can be produced (the rasterizer errors outright or yields an empty
list); when rasterization fails after at least one page succeeded, the
compressed document is rebuilt from the successfully rasterized prefix
(with no note); in every case exactly one outcome is recorded and no
error reaches the caller. -/
theorem compress_degrades_only_when_no_page_amended (env : Env) (q : Int) (md : Nat)
    (f : InputFile)
    (himg : (isImageMime f.mimetype || isHeicByName f.originalname (some f.mimetype)) = false)
    (hpdf : isPdfMime f.mimetype f.originalname = true) :
    (∀ e, pdfToImagesBuffersWithFallback env f.content "jpg" = Except.error e →
      processFile env "pdf" q md true f =
        [⟨baseName f.originalname ++ "_original.pdf", OutBytes.raw f.content,
          "application/pdf", some e⟩]) ∧
    (∀ c, pdfToImagesBuffersWithFallback env f.content "jpg" = Except.ok ([], c) →
      processFile env "pdf" q md true f =
        [⟨baseName f.originalname ++ "_original.pdf", OutBytes.raw f.content,
          "application/pdf", some "Cannot rasterize PDF pages"⟩]) ∧
    (∀ bufs c, pdfToImagesBuffersWithFallback env f.content "jpg" = Except.ok (bufs, c) →
      bufs ≠ [] →
      processFile env "pdf" q md true f =
        [⟨baseName f.originalname ++ "_compressed.pdf",
          OutBytes.pdfDoc (imagesToPdf env bufs q md), "application/pdf", none⟩]) ∧
    (processFile env "pdf" q md true f).length = 1 := by
  refine ⟨?_, ?_, ?_, ?_⟩
  · intro e h
    simp [processFile, himg, hpdf, h]
  · intro c h
    simp [processFile, himg, hpdf, h]
  · intro bufs c h hb
    simp [processFile, himg, hpdf, h, hb]
  · rcases h : pdfToImagesBuffersWithFallback env f.content "jpg" with e | p
    · simp [processFile, himg, hpdf, h]
    · rcases p with ⟨bufs, c⟩
      cases bufs with
      | nil => simp [processFile, himg, hpdf, h]
      | cons b rest => simp [processFile, himg, hpdf, h]

/-- Witness for the amended C5 at a concrete input: with no local codec
and no remote credential, rasterization errors outright and the file
degrades to its original bytes with the thrown message as note. -/
theorem compress_degrades_only_when_no_page_amended_witness :
    processFile noSharpEnv "pdf" 80 100 true ⟨"doc.pdf", "application/pdf", [9]⟩ =
      [⟨baseName "doc.pdf" ++ "_original.pdf", OutBytes.raw [9], "application/pdf",
        some "Server cannot rasterize PDF locally and CLOUDCONVERT_API_KEY not configured"⟩] :=
  (compress_degrades_only_when_no_page_amended noSharpEnv 80 100
      ⟨"doc.pdf", "application/pdf", [9]⟩ (by decide) (by decide)).1
    "Server cannot rasterize PDF locally and CLOUDCONVERT_API_KEY not configured" (by decide)

/-- C6 counterexample: a two-image batch targeting `pdf` with the
bundle flag off combines into exactly one output, yet the response is
an archive — because `makeZip` also fires on `req.files.length > 1` —
refuting "archive if and only if the bundle flag is set or more than
one output exists". -/
theorem zip_despite_single_output_counterexample :
    reqC6.zipFlag = false ∧
    (convertOutputs noSharpEnv reqC6).length = 1 ∧
    apiConvert noSharpEnv reqC6 =
      Response.zip [("gen.pdf", OutBytes.pdfDoc
        [Page.placeholder 600 800 "Could not embed image on this page (conversion failed).",
         Page.placeholder 600 800 "Could not embed image on this page (conversion failed)."])] := by
  decide

/-- C6 amended: the response is an archive of all outputs if and only
if the bundle flag is set, or more than one FILE was uploaded, or more
than one output exists; otherwise the single output is returned
directly (with its note, when present, surfaced as the advisory
header). -/
theorem packaging_decision_amended (env : Env) (req : Request) (hne : req.files ≠ []) :
    convertOutputs env req ≠ [] ∧
    ((req.zipFlag = true ∨ 1 < req.files.length ∨ 1 < (convertOutputs env req).length) →
      apiConvert env req =
        Response.zip ((convertOutputs env req).map (fun o => (o.name, o.buffer)))) ∧
    (req.zipFlag = false → req.files.length ≤ 1 →
      ∀ o, convertOutputs env req = [o] → apiConvert env req = Response.single o) :=
  ⟨convertOutputs_ne_nil env req hne,
   fun h => apiConvert_zip env req hne h,
   fun hzf hlen o ho => apiConvert_single env req hne hzf hlen o ho⟩

/-- Witness for the amended C6 at a concrete input: a single
unknown-type file with the bundle flag off is returned directly as a
single output carrying its note. -/
theorem packaging_decision_amended_witness :
    apiConvert noSharpEnv reqSingle =
      Response.single ⟨"unknown.xyz", OutBytes.raw [5], "application/x-thing",
        some "Unknown input type, returned original."⟩ :=
  (packaging_decision_amended noSharpEnv reqSingle (by decide)).2.2 rfl (by decide)
    ⟨"unknown.xyz", OutBytes.raw [5], "application/x-thing",
      some "Unknown input type, returned original."⟩ (by decide)

/-- C7 counterexample: two input files sharing the base name `a`
produce two archive entries both named `a_original.jpg` — entry names
are not pairwise distinct and no deterministic resolution is applied;
both entries are appended to the archive under the same name. -/
theorem archive_duplicate_names_counterexample :
    ((convertOutputs noSharpEnv reqC7).map (fun o => o.name)) =
      ["a_original.jpg", "a_original.jpg"] ∧
    ¬ ((convertOutputs noSharpEnv reqC7).map (fun o => o.name)).Nodup ∧
    apiConvert noSharpEnv reqC7 =
      Response.zip [("a_original.jpg", OutBytes.raw [1]),
                    ("a_original.jpg", OutBytes.raw [2])] := by
  decide

/-- C7 amended: the archive receives exactly one entry per produced
output, appended in output order (a colliding name never causes an
output to be dropped or overwritten server-side), and the names
generated from any single input file are pairwise distinct thanks to
the 1-based page-index suffix; names may collide across distinct input
files (e.g. equal base names). -/
theorem archive_entries_amended (env : Env) (req : Request) (f : InputFile)
    (tf : String) (q : Int) (md : Nat) (cp : Bool)
    (hne : req.files ≠ [])
    (hzip : req.zipFlag = true ∨ 1 < req.files.length ∨ 1 < (convertOutputs env req).length) :
    apiConvert env req =
      Response.zip ((convertOutputs env req).map (fun o => (o.name, o.buffer))) ∧
    ((convertOutputs env req).map (fun o => (o.name, o.buffer))).length =
      (convertOutputs env req).length ∧
    ((processFile env tf q md cp f).map (fun o => o.name)).Nodup :=
  ⟨apiConvert_zip env req hne hzip, List.length_map _ _,
   processFile_names_nodup env tf q md cp f⟩

/-- Witness for the amended C7 at a concrete input: a two-file batch
with the bundle flag set archives one entry per output, and a PDF
split into page images yields pairwise distinct names. -/
theorem archive_entries_amended_witness :
    apiConvert partialRasterEnv reqC7b =
      Response.zip ((convertOutputs partialRasterEnv reqC7b).map (fun o => (o.name, o.buffer))) ∧
    ((convertOutputs partialRasterEnv reqC7b).map (fun o => (o.name, o.buffer))).length =
      (convertOutputs partialRasterEnv reqC7b).length ∧
    ((processFile partialRasterEnv "jpg" 80 100 false
        ⟨"doc.pdf", "application/pdf", [9]⟩).map (fun o => o.name)).Nodup :=
  archive_entries_amended partialRasterEnv reqC7b ⟨"doc.pdf", "application/pdf", [9]⟩
    "jpg" 80 100 false (by decide) (Or.inl rfl)

end Server
